import Mathlib

/-!
Verification of the resumable chunked bulk-transfer engine of orchid-db.

The definitions below are shallow embeddings of the Python functions in
src/etl/gbif.py, src/etl/sources.py and src/etl/wfo.py.  Pure string and
list manipulations are translated directly; the database and file-system
effects (DuckDB staging queries, PostgreSQL COPY, file reads) are made
explicit by passing the outcome of each effectful step as an argument
(for example, the per-encoding parse result of a CSV file, or whether a
chunk raised during COPY).  Python integers are arbitrary precision, so
Nat is used without wraparound.

Python string primitives (str.lower, str.replace, str.strip, str.split,
str.isdigit, int parsing) are re-implemented here by structural recursion
over the character list of the string, so that every definition evaluates
inside the kernel; they mirror the Python semantics on the ASCII data
these pipelines manipulate.
-/

set_option maxHeartbeats 1000000

namespace OrchidDb

/-! ### Python string primitives, re-implemented over character lists -/

/-- Python str.lower, ASCII: lowercase every character. -/
def pyLower (s : String) : String := String.mk (s.data.map Char.toLower)

/-- Python membership test for a single character in a string. -/
def pyContainsChar (s : String) (c : Char) : Bool := s.data.contains c

/-- Python str.strip with no argument: remove leading and trailing
whitespace. -/
def pyStrip (s : String) : String :=
  String.mk
    (((s.data.dropWhile Char.isWhitespace).reverse.dropWhile Char.isWhitespace).reverse)

/-- Python str.isdigit on the ASCII content these files hold: nonempty
and every character a decimal digit. -/
def pyIsDigit (s : String) : Bool := !s.data.isEmpty && s.data.all Char.isDigit

/-- Python int(...) on a string of decimal digits. -/
def pyToNat (s : String) : ℕ := s.data.foldl (fun n c => 10 * n + (c.toNat - 48)) 0

/-- Does the pattern occur at the head of the character list? -/
def charsStartWith : List Char → List Char → Bool
  | [], _ => true
  | _ :: _, [] => false
  | p :: ps, c :: cs => p == c && charsStartWith ps cs

/-- Fuel-driven worker for pyReplace: scan left to right, replacing each
non-overlapping occurrence of the pattern, as Python str.replace does.
The fuel is the length of the scanned list, enough because every step
consumes at least one character when the pattern is nonempty. -/
def replaceChars (pat rep : List Char) : ℕ → List Char → List Char
  | 0, s => s
  | _ + 1, [] => []
  | fuel + 1, c :: cs =>
    if charsStartWith pat (c :: cs) then
      rep ++ replaceChars pat rep fuel ((c :: cs).drop pat.length)
    else
      c :: replaceChars pat rep fuel cs

/-- Python str.replace(old, new) for a nonempty pattern (the pipelines
only ever replace canonical column names, which are nonempty). -/
def pyReplace (s pat rep : String) : String :=
  if pat.data.isEmpty then s
  else String.mk (replaceChars pat.data rep.data s.data.length s.data)

/-- Worker for pySplitLines: split a character list at every newline. -/
def splitCharsNl : List Char → List Char → List (List Char)
  | [], cur => [cur.reverse]
  | c :: rest, cur =>
    if c == '\n' then cur.reverse :: splitCharsNl rest []
    else splitCharsNl rest (c :: cur)

/-- Split a file content into lines at newline characters (modelling
Python iteration over the lines of an open file, with the trailing
newline of each line subsequently removed by str.strip). -/
def pySplitLines (s : String) : List String :=
  (splitCharsNl s.data []).map String.mk

/-- A single-quote character (codepoint 39), used to build SQL literals
such as the Plantae filter without embedding quote characters directly. -/
def sq : String := String.singleton (Char.ofNat 39)

/-- The space character (codepoint 32). -/
def spaceChar : Char := Char.ofNat 32

/-- The canonical filter expression from the dataset configurations in
src/etl/gbif.py and src/etl/sources.py: kingdom = &#39;Plantae&#39;. -/
def kingdomFilter : String := "kingdom = " ++ sq ++ "Plantae" ++ sq

/-! ### Filter Adapter: create_smart_filter (src/etl/sources.py lines 78-98) -/

/-- The hard-coded list of canonical column names scanned by
create_smart_filter (src/etl/sources.py lines 84-85). -/
def expectedColumns : List String :=
  ["kingdom", "phylum", "class", "order", "family", "genus", "species",
   "taxonomicStatus", "taxonRank", "scientificName"]

/-- Python: the first actual column whose lowercasing equals the
lowercasing of the expected name (the inner loop with break,
src/etl/sources.py lines 88-92). -/
def findColumnMatch (availableColumns : List String) (expected : String) : Option String :=
  availableColumns.find? (fun actual => pyLower actual == pyLower expected)

/-- Python: f-string quoting applied when the actual name contains a
space or differs from its own lowercasing (src/etl/sources.py line 90). -/
def quoteIfNeeded (actual : String) : String :=
  if pyContainsChar actual spaceChar || actual != pyLower actual then
    "\"" ++ actual ++ "\""
  else actual

/-- The column_mapping dict of create_smart_filter, in insertion order
(the order of expectedColumns), keeping only the expected names that
found a case-insensitive match. -/
def columnMapping (availableColumns : List String) : List (String × String) :=
  expectedColumns.filterMap fun expected =>
    (findColumnMatch availableColumns expected).map fun actual =>
      (expected, quoteIfNeeded actual)

/-- Shallow embedding of create_smart_filter (src/etl/sources.py lines
78-98).  Python returns None exactly when the filter condition is falsy
(None or the empty string); otherwise it applies str.replace for every
entry of column_mapping in insertion order and returns the result. -/
def create_smart_filter (filterCondition : String) (availableColumns : List String) :
    Option String :=
  if filterCondition = "" then none
  else
    some ((columnMapping availableColumns).foldl
      (fun acc p => pyReplace acc p.1 p.2) filterCondition)

/-- The filter stage of process_chunk_to_postgres (src/etl/sources.py
lines 438-469): either the chunk proceeds to the COPY step with some row
count (usedFilter records whether the WHERE clause was applied), or the
function returns early with a zero-row result dict. -/
inductive FilterOutcome where
  | proceed (rowCount : ℕ) (usedFilter : Bool)
  | earlyEmpty (originalCount : ℕ)
  deriving DecidableEq, Repr

/-- Shallow embedding of the filter block of process_chunk_to_postgres
(src/etl/sources.py lines 438-469).  runFilterQuery models executing
CREATE TABLE filtered_chunk AS SELECT ... WHERE adjusted_filter in
DuckDB: some n is a successful query returning n rows, none is a raised
exception (for example a binder error because the adjusted filter still
references a column that does not exist); the surrounding except clause
catches it and the chunk proceeds unfiltered. -/
def chunkFilterStage (filterCondition : Option String) (availableColumns : List String)
    (runFilterQuery : String → Option ℕ) (originalCount : ℕ) : FilterOutcome :=
  match filterCondition with
  | none => .proceed originalCount false
  | some fc =>
    match create_smart_filter fc availableColumns with
    | some adjusted =>
      match runFilterQuery adjusted with
      | some filteredCount =>
        if filteredCount = 0 then .earlyEmpty originalCount
        else .proceed filteredCount true
      | none => .proceed originalCount false
    | none =>
      if originalCount = 0 then .earlyEmpty originalCount
      else .proceed originalCount false

/-! ### Progress Ledger: load_progress (src/etl/gbif.py lines 132-147) -/

/-- The observable state of the ledger backing file: absent (or no
progress_file configured), unreadable (open or read raises, the except
branch at line 145), or readable with the given full contents. -/
inductive LedgerFile where
  | absent
  | unreadable
  | content (s : String)

/-- Shallow embedding of load_progress (src/etl/gbif.py lines 132-147):
iterate the lines of the file, strip each, keep the ones that are
nonempty and all digits, and collect the parsed integers into a set. -/
def load_progress : LedgerFile → Finset ℕ
  | .absent => ∅
  | .unreadable => ∅
  | .content s =>
    ((pySplitLines s).map pyStrip).foldl
      (fun acc l => if pyIsDigit l then insert (pyToNat l) acc else acc) ∅

/-! ### Staging Loader cascade (src/etl/sources.py lines 22-56, 125-183,
185-290, 401-436) -/

/-- The encodings tried by load_csv_with_duckdb_autodetect
(src/etl/sources.py line 23), also the manual fallback encodings of the
chunk loader (line 407). -/
def autodetectEncodings : List String := ["utf-8", "latin-1", "cp1252", "iso-8859-1"]

/-- The encodings tried by the manual fallback of load_small_csv_to_duckdb
(src/etl/sources.py line 193). -/
def smallFileEncodings : List String :=
  ["utf-8", "latin-1", "cp1252", "iso-8859-1", "utf-16", "utf-8-sig"]

/-- Abstraction of one on-disk CSV file as seen by the loader cascade.
Each effectful DuckDB read_csv call is represented by its outcome:
some n means the query succeeded and produced a table of n rows, none
means it raised.  autoParse is read_csv with auto_detect per encoding;
manualParse is the explicit-option read_csv per encoding and option-set
index (0, 1, 2 in load_small_csv_to_duckdb, index 0 alone in the chunk
loader, whose single manual call uses the explicit delimiter options);
repairParse is the auto_detect retry against the sanitized copy written
by repair_and_load_csv. -/
structure SourceFile where
  sizeBytes : ℕ
  autoParse : String → Option ℕ
  manualParse : String → ℕ → Option ℕ
  repairParse : Option ℕ

/-- Shallow embedding of load_csv_with_duckdb_autodetect
(src/etl/sources.py lines 22-56): try each encoding in order, return the
first positive row count; a zero-row table or an exception moves on to
the next encoding; when every encoding is exhausted, raise. -/
def load_csv_with_duckdb_autodetect (parse : String → Option ℕ) :
    List String → Except String ℕ
  | [] => .error "Could not load with DuckDB auto-detect using any encoding"
  | e :: rest =>
    match parse e with
    | some n => if 0 < n then .ok n else load_csv_with_duckdb_autodetect parse rest
    | none => load_csv_with_duckdb_autodetect parse rest

/-- The inner option-set loop of load_small_csv_to_duckdb
(src/etl/sources.py lines 262-279): try each of the three read_csv
option sets for one encoding; zero rows or an exception moves on. -/
def tryOptionSets (parse : ℕ → Option ℕ) : List ℕ → Option ℕ
  | [] => none
  | i :: rest =>
    match parse i with
    | some n => if 0 < n then some n else tryOptionSets parse rest
    | none => tryOptionSets parse rest

/-- The outer encoding loop of the manual fallback of
load_small_csv_to_duckdb (src/etl/sources.py lines 220-283). -/
def tryManualEncodings (f : SourceFile) : List String → Option ℕ
  | [] => none
  | e :: rest =>
    match tryOptionSets (f.manualParse e) [0, 1, 2] with
    | some n => some n
    | none => tryManualEncodings f rest

/-- Shallow embedding of repair_and_load_csv (src/etl/sources.py lines
125-183): decoding with errors=replace never fails, so the outcome is
decided by the auto-detect retry against the sanitized copy; zero rows
raise (line 179). -/
def repair_and_load_csv (f : SourceFile) : Except String ℕ :=
  match f.repairParse with
  | some n => if 0 < n then .ok n else .error "Repaired file still has 0 rows"
  | none => .error "Could not decode file for repair"

/-- Shallow embedding of load_small_csv_to_duckdb (src/etl/sources.py
lines 185-290): auto-detect first; on failure, files under 10 bytes are
skipped with a zero-row success (lines 216-218); otherwise the manual
encoding-by-option-set cascade runs, and when it is exhausted the repair
pass is the last resort, any failure of which raises. -/
def load_small_csv_to_duckdb (f : SourceFile) : Except String ℕ :=
  match load_csv_with_duckdb_autodetect f.autoParse autodetectEncodings with
  | .ok n => .ok n
  | .error _ =>
    if f.sizeBytes < 10 then .ok 0
    else
      match tryManualEncodings f smallFileEncodings with
      | some n => .ok n
      | none =>
        match repair_and_load_csv f with
        | .ok n => .ok n
        | .error _ => .error "Could not load with any encoding or repair method"

/-- Outcome of the chunk-loading block of process_chunk_to_postgres. -/
inductive ChunkLoadResult where
  | loaded (n : ℕ)
  | unloadable
  deriving DecidableEq, Repr

/-- The manual per-encoding fallback of the chunk loader
(src/etl/sources.py lines 407-433): one explicit-option read_csv per
encoding, zero rows or an exception moving on. -/
def chunkManualEncodings (f : SourceFile) : List String → Option ℕ
  | [] => none
  | e :: rest =>
    match f.manualParse e 0 with
    | some n => if 0 < n then some n else chunkManualEncodings f rest
    | none => chunkManualEncodings f rest

/-- Shallow embedding of the loading block of process_chunk_to_postgres
(src/etl/sources.py lines 401-436): auto-detect, then the manual
encoding loop; when the loop finishes without a break, the for-else at
line 434 makes the function return the dict with rows 0 and
original_rows 0 rather than raise. -/
def chunkLoad (f : SourceFile) : ChunkLoadResult :=
  match load_csv_with_duckdb_autodetect f.autoParse autodetectEncodings with
  | .ok n => .loaded n
  | .error _ =>
    match chunkManualEncodings f autodetectEncodings with
    | some n => .loaded n
    | none => .unloadable

/-- The rows and original_rows of the dict returned by
process_chunk_to_postgres at the end of its loading block: the for-else
path returns both fields 0; a loaded chunk continues with its row
count.  No exception escapes either way. -/
def chunkLoadResultDict (f : SourceFile) : ℕ × ℕ :=
  match chunkLoad f with
  | .loaded n => (n, n)
  | .unloadable => (0, 0)

/-- A file holding a single 10-byte header line and no data rows: every
parse strategy succeeds with a zero-row table and the sanitized repair
copy also holds zero data rows. -/
def headerOnlyFile : SourceFile :=
  { sizeBytes := 10
    autoParse := fun _ => some 0
    manualParse := fun _ _ => some 0
    repairParse := some 0 }

/-- A header-only file smaller than 10 bytes, for the size-skip branch. -/
def tinyHeaderOnlyFile : SourceFile :=
  { sizeBytes := 2
    autoParse := fun _ => some 0
    manualParse := fun _ _ => some 0
    repairParse := some 0 }

/-! ### Chunk Splitter: split_large_csv (src/etl/gbif.py lines 175-241,
src/etl/wfo.py lines 275-341) -/

/-- Append a line to the currently open (last) chunk file. -/
def pushLast (chunks : List (List String)) (line : String) : List (List String) :=
  chunks.dropLast ++ [(chunks.getLast?.getD []) ++ [line]]

/-- One iteration of the line loop of split_large_csv (src/etl/gbif.py
lines 205-230): the state is the list of chunk files written so far
(the last one being open) and current_chunk_rows; when the row counter
is zero a new chunk file is opened with the header written into it; the
line is then written and the counter incremented, resetting to zero once
it reaches the configured chunk size. -/
def splitStep (header : String) (chunkSize : ℕ)
    (st : List (List String) × ℕ) (line : String) : List (List String) × ℕ :=
  let chunks := if st.2 = 0 then st.1 ++ [[header]] else st.1
  let chunks := pushLast chunks line
  let rows := st.2 + 1
  (chunks, if chunkSize ≤ rows then 0 else rows)

/-- Shallow embedding of the splitting loop of split_large_csv on the
fresh-directory path (no existing chunk files): the source is the header
line followed by the data lines, and the result is the list of chunk
files, each represented by its list of lines. -/
def split_large_csv (header : String) (dataLines : List String) (chunkSize : ℕ) :
    List (List String) :=
  (dataLines.foldl (splitStep header chunkSize) ([], 0)).1

/-- Fuel-driven worker for sliceBatches, structurally recursive on the
fuel so that it evaluates inside the kernel; the fuel is the length of
the list, enough because every step consumes at least one element. -/
def sliceBatchesAux {α : Type} (bs : ℕ) : ℕ → List α → List (List α)
  | _, [] => []
  | 0, _ :: _ => []
  | fuel + 1, x :: xs => (x :: xs.take (bs - 1)) :: sliceBatchesAux bs fuel (xs.drop (bs - 1))

/-- Python list slicing into consecutive batches, remaining[i:i+bs] for
i in range(0, len(remaining), bs), as in parallel_transfer
(src/etl/gbif.py lines 731-734).  For bs = 0 Python would raise
ValueError on the range step, and this function instead produces
singleton batches, so every lemma about it assumes 0 < bs. -/
def sliceBatches {α : Type} (bs : ℕ) (l : List α) : List (List α) :=
  sliceBatchesAux bs l.length l

/-! ### Orchestrator chunk arithmetic (src/etl/gbif.py lines 713-741) -/

/-- max_chunks = (total_count + chunk_size - 1) // chunk_size
(src/etl/gbif.py line 714). -/
def max_chunks (totalCount chunkSize : ℕ) : ℕ :=
  (totalCount + chunkSize - 1) / chunkSize

/-- remaining_chunks = [i for i in range(max_chunks) if i not in
completed_chunks] (src/etl/gbif.py line 715). -/
def remaining_chunks (totalCount chunkSize : ℕ) (completed : List ℕ) : List ℕ :=
  (List.range (max_chunks totalCount chunkSize)).filter
    (fun i => !(completed.contains i))

/-- chunk_batches: the remaining chunk indices partitioned into
consecutive slices of batch_size (src/etl/gbif.py lines 731-734). -/
def chunk_batches (remaining : List ℕ) (batchSize : ℕ) : List (List ℕ) :=
  sliceBatches batchSize remaining

/-! ### Transfer worker (src/etl/gbif.py process_chunk_batch, lines
416-675) -/

/-- The COPY header decision of process_chunk_batch (src/etl/gbif.py
line 509): COPY ... WITH CSV HEADER is used exactly when the chunk index
is 0 and the sink table did not pre-exist before the run. -/
def copy_uses_header (chunkNum : ℕ) (tableExists : Bool) : Bool :=
  chunkNum == 0 && !tableExists

/-- The lines of the exported chunk CSV that are streamed to the sink
(src/etl/gbif.py lines 508-533): the whole file in header mode, and the
file with its first line consumed by next(f) otherwise. -/
def lines_sent_to_sink (chunkNum : ℕ) (tableExists : Bool) (file : List String) :
    List String :=
  if copy_uses_header chunkNum tableExists then file else file.drop 1

/-- What happens while one chunk of a batch is processed: ok gives the
lines of the CSV exported from DuckDB (header first), after which the
COPY to the sink succeeds; err is an exception anywhere in the per-chunk
try block (export, read, or COPY), whose handler at src/etl/gbif.py
lines 564-569 rolls the sink transaction back and continues with the
next chunk. -/
inductive ChunkOutcome where
  | ok (file : List String)
  | err

/-- Worker-local state while a batch runs: the rows COPYed into the
still-open sink transaction (as chunk index paired with the lines sent),
the processed_chunks list, and batch_record_count. -/
structure BatchState where
  pending : List (ℕ × List String)
  processed : List ℕ
  records : ℕ
  deriving DecidableEq, Repr

/-- One iteration of the chunk loop of process_chunk_batch
(src/etl/gbif.py lines 437-569): a chunk already in the shared
completed_chunks snapshot is skipped; an exported file with at most the
header line is skipped as filtered-out (lines 478-481); otherwise the
payload is COPYed into the open transaction, the chunk is appended to
processed_chunks and its data-row count added to batch_record_count; an
exception rolls back the whole open transaction (line 568) and
continues - processed_chunks is not rewound. -/
def batchStep (completed : List ℕ) (tableExists : Bool) (out : ℕ → ChunkOutcome)
    (s : BatchState) (c : ℕ) : BatchState :=
  if completed.contains c then s
  else
    match out c with
    | .err => { s with pending := [] }
    | .ok file =>
      if file.length ≤ 1 then s
      else
        { pending := s.pending ++ [(c, lines_sent_to_sink c tableExists file)]
          processed := s.processed ++ [c]
          records := s.records + (file.length - 1) }

/-- The chunk loop of process_chunk_batch run over a whole batch. -/
def runBatch (completed : List ℕ) (tableExists : Bool) (out : ℕ → ChunkOutcome)
    (batch : List ℕ) : BatchState :=
  batch.foldl (batchStep completed tableExists out) ⟨[], [], 0⟩

/-- The rows durably committed by the batch (src/etl/gbif.py lines
571-577): the single commit at the end of the loop makes durable exactly
what is still pending in the open transaction, and only runs when
processed_chunks is nonempty; otherwise the connection is closed with
the transaction discarded. -/
def committedAfterBatch (completed : List ℕ) (tableExists : Bool)
    (out : ℕ → ChunkOutcome) (batch : List ℕ) : List (ℕ × List String) :=
  let s := runBatch completed tableExists out batch
  if s.processed.isEmpty then [] else s.pending

/-- The ledger contents after the worker updates shared progress
(src/etl/gbif.py lines 595-612): completed_chunks.update(processed) then
save; membership-wise the old ledger extended with processed_chunks. -/
def ledgerAfterBatch (completed : List ℕ) (tableExists : Bool)
    (out : ℕ → ChunkOutcome) (batch : List ℕ) : List ℕ :=
  completed ++ (runBatch completed tableExists out batch).processed

/-- The per-batch result dict of process_chunk_batch (src/etl/gbif.py
lines 634-649). -/
structure TransferResult where
  workerId : ℕ
  processedChunks : ℕ
  recordCount : ℕ
  success : Bool
  deriving DecidableEq, Repr

/-- Shallow embedding of process_chunk_batch as seen by the orchestrator
(src/etl/gbif.py lines 416-649): batchExn models an exception escaping
the worker body outside the per-chunk handlers (opening either
connection, naming the temp file, or the final commit), which lands in
the except at line 641; otherwise the chunk loop runs to completion and
the success dict at line 634 is returned, whatever happened to the
individual chunks. -/
def process_chunk_batch (workerId : ℕ) (batchExn : Bool) (completed : List ℕ)
    (tableExists : Bool) (out : ℕ → ChunkOutcome) (batch : List ℕ) : TransferResult :=
  if batchExn then
    { workerId := workerId, processedChunks := 0, recordCount := 0, success := false }
  else
    let s := runBatch completed tableExists out batch
    { workerId := workerId, processedChunks := s.processed.length
      recordCount := s.records, success := true }

/-! ### Post-transfer verification: verify_transfer (src/etl/gbif.py
lines 834-881) -/

/-- The effectful steps of verify_transfer: the sink COUNT(*) query and
the id-statistics query, each either returning a value or raising
(none).  The information-schema query run when the count is exactly
1,000,000 is absorbed into idStats, since it sits between the two in the
same try block. -/
structure VerifyInput where
  pgCount : Option ℕ
  idStats : Option (ℕ × ℕ × ℕ)
  progressFileExists : Bool

/-- What verify_transfer did: the count it reported, whether the
suspicious-truncation warning fired, and whether the progress ledger
file was removed. -/
structure VerifyResult where
  reportedCount : Option ℕ
  warnedTruncation : Bool
  progressDeleted : Bool
  deriving DecidableEq, Repr

/-- Shallow embedding of verify_transfer (src/etl/gbif.py lines
834-881): any exception in the try block skips the cleanup, otherwise
the progress file is removed whenever it exists; the count comparison
against 1,000,000 only prints a warning. -/
def verify_transfer (inp : VerifyInput) : VerifyResult :=
  match inp.pgCount with
  | none => { reportedCount := none, warnedTruncation := false, progressDeleted := false }
  | some n =>
    match inp.idStats with
    | none =>
      { reportedCount := some n, warnedTruncation := n == 1000000
        progressDeleted := false }
    | some _ =>
      { reportedCount := some n, warnedTruncation := n == 1000000
        progressDeleted := inp.progressFileExists }

/-! ### Lemmas about batch slicing -/

/-- The fuel of sliceBatchesAux is irrelevant once it covers the length
of the list. -/
theorem sliceBatchesAux_congr {α : Type} (bs : ℕ) :
    ∀ (fuel fuel' : ℕ) (l : List α), l.length ≤ fuel → l.length ≤ fuel' →
      sliceBatchesAux bs fuel l = sliceBatchesAux bs fuel' l := by
  intro fuel
  induction fuel with
  | zero =>
    intro fuel' l hl _
    have hnil : l = [] := List.eq_nil_of_length_eq_zero (Nat.le_zero.mp hl)
    subst hnil
    cases fuel' <;> simp [sliceBatchesAux]
  | succ fuel ih =>
    intro fuel' l hl hl'
    cases l with
    | nil => cases fuel' <;> simp [sliceBatchesAux]
    | cons x xs =>
      cases fuel' with
      | zero => simp at hl'
      | succ fuel₂ =>
        simp only [sliceBatchesAux]
        congr 1
        have h1 : (xs.drop (bs - 1)).length ≤ fuel := by
          rw [List.length_drop]
          simp only [List.length_cons] at hl
          omega
        have h2 : (xs.drop (bs - 1)).length ≤ fuel₂ := by
          rw [List.length_drop]
          simp only [List.length_cons] at hl'
          omega
        exact ih fuel₂ _ h1 h2

theorem sliceBatches_nil {α : Type} (bs : ℕ) : sliceBatches bs ([] : List α) = [] := rfl

/-- Unfolding equation of sliceBatches on a nonempty list. -/
theorem sliceBatches_cons {α : Type} (bs : ℕ) (x : α) (xs : List α) :
    sliceBatches bs (x :: xs)
      = (x :: xs.take (bs - 1)) :: sliceBatches bs (xs.drop (bs - 1)) := by
  show sliceBatchesAux bs (xs.length + 1) (x :: xs) = _
  simp only [sliceBatchesAux]
  congr 1
  apply sliceBatchesAux_congr
  · simp [List.length_drop]
  · exact le_rfl

/-- For a positive batch size, slicing a nonempty list takes the first
bs elements as the first batch and recurses on the rest. -/
theorem sliceBatches_eq_take_drop {α : Type} (bs : ℕ) (hbs : 0 < bs)
    (l : List α) (hl : l ≠ []) :
    sliceBatches bs l = l.take bs :: sliceBatches bs (l.drop bs) := by
  match l with
  | [] => exact absurd rfl hl
  | x :: xs =>
    rw [sliceBatches_cons]
    have h1 : (x :: xs).take bs = x :: xs.take (bs - 1) := by
      have hb : bs = (bs - 1) + 1 := by omega
      rw [hb]
      rfl
    have h2 : (x :: xs).drop bs = xs.drop (bs - 1) := by
      have hb : bs = (bs - 1) + 1 := by omega
      rw [hb]
      rfl
    rw [h1, h2]

theorem sliceBatches_eq_nil_iff {α : Type} (bs : ℕ) (l : List α) :
    sliceBatches bs l = [] ↔ l = [] := by
  match l with
  | [] => simp [sliceBatches_nil]
  | x :: xs => simp [sliceBatches_cons]

/-- Slicing partitions the list: the concatenation of the batches is the
original list. -/
theorem sliceBatches_flatten {α : Type} (bs : ℕ) (hbs : 0 < bs) :
    ∀ l : List α, (sliceBatches bs l).flatten = l
  | [] => by simp [sliceBatches_nil]
  | x :: xs => by
    rw [sliceBatches_cons, List.flatten_cons,
      sliceBatches_flatten bs hbs (xs.drop (bs - 1))]
    simp [List.take_append_drop]
termination_by l => l.length
decreasing_by simp [List.length_drop]; omega

/-- For a nonempty tail, getLast? skips the head. -/
theorem getLast_q_cons_of_ne_nil {α : Type} (a : α) (l : List α) (h : l ≠ []) :
    (a :: l).getLast? = l.getLast? := by
  cases l with
  | nil => exact absurd rfl h
  | cons b t => exact List.getLast?_cons_cons

/-- The number of batches is the ceiling of length over batch size. -/
theorem sliceBatches_length {α : Type} (bs : ℕ) (hbs : 0 < bs) :
    ∀ l : List α, (sliceBatches bs l).length = (l.length + bs - 1) / bs
  | [] => by
    rw [sliceBatches_nil]
    show 0 = (0 + bs - 1) / bs
    rw [Nat.div_eq_of_lt (by omega)]
  | x :: xs => by
    rw [sliceBatches_cons]
    simp only [List.length_cons]
    rw [sliceBatches_length bs hbs (xs.drop (bs - 1))]
    simp only [List.length_drop]
    rcases Nat.lt_or_ge (xs.length) bs with hlt | hge
    · have h1 : xs.length - (bs - 1) + bs - 1 < bs := by omega
      rw [Nat.div_eq_of_lt h1]
      have h2 : xs.length + 1 + bs - 1 = xs.length + bs := by omega
      rw [h2, Nat.add_div_right _ hbs, Nat.div_eq_of_lt hlt]
    · have h1 : xs.length - (bs - 1) + bs - 1 = xs.length - bs + bs := by omega
      have h2 : xs.length + 1 + bs - 1 = (xs.length - bs + bs) + bs := by omega
      rw [h1, h2, Nat.add_div_right _ hbs, Nat.add_div_right _ hbs,
        Nat.add_div_right _ hbs]
termination_by l => l.length
decreasing_by simp [List.length_drop]; omega

/-- Every batch except possibly the last holds exactly bs elements. -/
theorem sliceBatches_dropLast_length {α : Type} (bs : ℕ) (hbs : 0 < bs) :
    ∀ l : List α, ∀ b ∈ (sliceBatches bs l).dropLast, b.length = bs
  | [] => by simp [sliceBatches_nil]
  | x :: xs => by
    intro b hb
    by_cases hlen : xs.length ≤ bs - 1
    · have hdrop : xs.drop (bs - 1) = [] := List.drop_eq_nil_of_le hlen
      rw [sliceBatches_cons, hdrop, sliceBatches_nil] at hb
      simp at hb
    · push_neg at hlen
      have hdrop : xs.drop (bs - 1) ≠ [] := by
        apply List.ne_nil_of_length_pos
        rw [List.length_drop]
        omega
      have hne : sliceBatches bs (xs.drop (bs - 1)) ≠ [] := by
        rw [Ne, sliceBatches_eq_nil_iff]
        exact hdrop
      rw [sliceBatches_cons, List.dropLast_cons_of_ne_nil hne] at hb
      rcases List.mem_cons.mp hb with hb | hb
      · subst hb
        rw [List.length_cons, List.length_take]
        omega
      · exact sliceBatches_dropLast_length bs hbs (xs.drop (bs - 1)) b hb
termination_by l => l.length
decreasing_by simp [List.length_drop]; omega

/-- Every batch is nonempty and holds at most bs elements. -/
theorem sliceBatches_mem_bounds {α : Type} (bs : ℕ) (hbs : 0 < bs) :
    ∀ l : List α, ∀ b ∈ sliceBatches bs l, b ≠ [] ∧ b.length ≤ bs
  | [] => by simp [sliceBatches_nil]
  | x :: xs => by
    intro b hb
    rw [sliceBatches_cons] at hb
    rcases List.mem_cons.mp hb with hb | hb
    · subst hb
      refine ⟨by simp, ?_⟩
      rw [List.length_cons, List.length_take]
      omega
    · exact (sliceBatches_mem_bounds bs hbs (xs.drop (bs - 1)) b hb)
termination_by l => l.length
decreasing_by simp [List.length_drop]; omega

/-- The length of the last batch: all elements not covered by the
earlier full batches. -/
theorem sliceBatches_getLast_length {α : Type} (bs : ℕ) (hbs : 0 < bs) :
    ∀ l : List α, l ≠ [] →
      (sliceBatches bs l).getLast?.map List.length
        = some (l.length - bs * ((sliceBatches bs l).length - 1))
  | [], h => absurd rfl h
  | x :: xs, _ => by
    by_cases hlen : xs.length ≤ bs - 1
    · have hdrop : xs.drop (bs - 1) = [] := List.drop_eq_nil_of_le hlen
      rw [sliceBatches_cons, hdrop, sliceBatches_nil]
      simp only [List.getLast?_singleton, List.length_cons, List.length_take,
        Option.map_some', List.length_singleton, List.length_nil]
      congr 1
      omega
    · push_neg at hlen
      have hdrop : xs.drop (bs - 1) ≠ [] := by
        apply List.ne_nil_of_length_pos
        rw [List.length_drop]
        omega
      have hne : sliceBatches bs (xs.drop (bs - 1)) ≠ [] := by
        rw [Ne, sliceBatches_eq_nil_iff]
        exact hdrop
      rw [sliceBatches_cons, getLast_q_cons_of_ne_nil _ _ hne,
        sliceBatches_getLast_length bs hbs (xs.drop (bs - 1)) hdrop]
      congr 1
      rw [List.length_drop, List.length_cons, List.length_cons]
      have hlen1 : 1 ≤ (sliceBatches bs (xs.drop (bs - 1))).length :=
        Nat.pos_of_ne_zero (fun h0 => hne (List.eq_nil_of_length_eq_zero h0))
      have hmul : bs * ((sliceBatches bs (xs.drop (bs - 1))).length + 1 - 1)
          = bs * ((sliceBatches bs (xs.drop (bs - 1))).length - 1) + bs := by
        rcases hh : (sliceBatches bs (xs.drop (bs - 1))).length with _ | m
        · omega
        · simp only [Nat.add_sub_cancel, Nat.succ_sub_one]
          rw [Nat.mul_succ]
      rw [hmul]
      generalize bs * ((sliceBatches bs (xs.drop (bs - 1))).length - 1) = A
      omega
termination_by l => l.length
decreasing_by simp [List.length_drop]; omega

/-! ### Lemmas about the splitter state machine -/

theorem pushLast_concat (chs : List (List String)) (cur : List String) (line : String) :
    pushLast (chs ++ [cur]) line = chs ++ [cur ++ [line]] := by
  unfold pushLast
  rw [List.dropLast_concat, List.getLast?_concat]
  rfl

/-- Unfolding of one splitter step with the row counter at zero: a fresh
chunk file holding the header and the line is opened. -/
theorem splitStep_zero (h : String) (C : ℕ) (chs : List (List String)) (line : String) :
    splitStep h C (chs, 0) line = (chs ++ [[h, line]], if C ≤ 1 then 0 else 1) := by
  show (pushLast (chs ++ [[h]]) line, _) = _
  rw [pushLast_concat]
  rfl

/-- Unfolding of one splitter step mid-chunk: the line goes to the open
chunk file. -/
theorem splitStep_pos (h : String) (C : ℕ) (chs : List (List String)) (cur : List String)
    (k : ℕ) (hk : k ≠ 0) (line : String) :
    splitStep h C (chs ++ [cur], k) line
      = (chs ++ [cur ++ [line]], if C ≤ k + 1 then 0 else k + 1) := by
  show (pushLast (if k = 0 then (chs ++ [cur]) ++ [[h]] else chs ++ [cur]) line, _) = _
  rw [if_neg hk, pushLast_concat]

/-- Running the splitter loop from the middle of an open chunk: either
the remaining lines fit in the open chunk, or the chunk fills up after
exactly C - k more lines and the loop continues from a fresh counter. -/
theorem foldl_splitStep_mid (h : String) (C : ℕ) :
    ∀ (rest : List String) (chs : List (List String)) (cur : List String) (k : ℕ),
      1 ≤ k → k < C →
      List.foldl (splitStep h C) (chs ++ [cur], k) rest =
        if rest.length < C - k then (chs ++ [cur ++ rest], k + rest.length)
        else List.foldl (splitStep h C) (chs ++ [cur ++ rest.take (C - k)], 0)
          (rest.drop (C - k)) := by
  intro rest
  induction rest with
  | nil =>
    intro chs cur k hk1 hkC
    rw [if_pos (by simp only [List.length_nil]; omega)]
    simp
  | cons line rest ih =>
    intro chs cur k hk1 hkC
    rw [List.foldl_cons, splitStep_pos h C chs cur k (by omega) line]
    by_cases hCk : C ≤ k + 1
    · have h1 : C - k = 1 := by omega
      rw [if_pos hCk]
      rw [if_neg (by simp only [List.length_cons, h1]; omega)]
      rw [h1]
      simp
    · rw [if_neg hCk]
      rw [ih chs (cur ++ [line]) (k + 1) (by omega) (by omega)]
      have hsplit : C - k = (C - (k + 1)) + 1 := by omega
      by_cases hr : rest.length < C - (k + 1)
      · rw [if_pos hr, if_pos (by simp only [List.length_cons]; omega)]
        simp only [Prod.mk.injEq]
        constructor
        · simp
        · simp only [List.length_cons]
          omega
      · rw [if_neg hr, if_neg (by simp only [List.length_cons]; omega)]
        rw [hsplit, List.take_succ_cons, List.drop_succ_cons]
        simp

/-- Running the splitter loop from a closed-chunk boundary on a
nonempty list of lines: a fresh chunk file is opened holding the header
and the next up-to-C lines. -/
theorem foldl_splitStep_start (h : String) (C : ℕ) (hC : 0 < C) (rows : List String)
    (hrows : rows ≠ []) (chs : List (List String)) :
    List.foldl (splitStep h C) (chs, 0) rows =
      if rows.length ≤ C then
        (chs ++ [h :: rows], if C ≤ rows.length then 0 else rows.length)
      else List.foldl (splitStep h C) (chs ++ [h :: rows.take C], 0) (rows.drop C) := by
  match rows with
  | [] => exact absurd rfl hrows
  | line :: rest =>
    rw [List.foldl_cons, splitStep_zero]
    by_cases hC1 : C ≤ 1
    · have hCeq : C = 1 := by omega
      subst hCeq
      rw [if_pos (by omega)]
      cases rest with
      | nil =>
        rw [if_pos (by simp)]
        rw [if_pos (by simp)]
        simp
      | cons l2 r2 =>
        rw [if_neg (by simp)]
        simp
    · rw [if_neg hC1]
      rw [foldl_splitStep_mid h C rest chs [h, line] 1 (le_refl 1) (by omega)]
      rcases lt_trichotomy (rest.length + 1) C with hlt | heq | hgt
      · rw [if_pos (by omega)]
        rw [if_pos (by simp only [List.length_cons]; omega)]
        rw [if_neg (by simp only [List.length_cons]; omega)]
        simp only [Prod.mk.injEq]
        constructor
        · simp
        · simp only [List.length_cons]
          omega
      · rw [if_neg (by omega)]
        rw [if_pos (by simp only [List.length_cons]; omega)]
        have htake : rest.take (C - 1) = rest := List.take_of_length_le (by omega)
        have hdrop : rest.drop (C - 1) = [] := List.drop_eq_nil_of_le (by omega)
        rw [htake, hdrop, List.foldl_nil]
        rw [if_pos (by simp only [List.length_cons]; omega)]
        simp
      · rw [if_neg (by omega)]
        rw [if_neg (by simp only [List.length_cons]; omega)]
        have hsplit : C = (C - 1) + 1 := by omega
        have htake : (line :: rest).take C = line :: rest.take (C - 1) := by
          conv_lhs => rw [hsplit]
          rw [List.take_succ_cons]
        have hdrop2 : (line :: rest).drop C = rest.drop (C - 1) := by
          conv_lhs => rw [hsplit]
          rw [List.drop_succ_cons]
        rw [htake, hdrop2]
        simp

/-- The splitter state machine computes exactly the consecutive C-sized
slices of the data lines, each preceded by the header. -/
theorem foldl_splitStep_closed (h : String) (C : ℕ) (hC : 0 < C) :
    ∀ (rows : List String) (chs : List (List String)),
      (List.foldl (splitStep h C) (chs, 0) rows).1
        = chs ++ (sliceBatches C rows).map (fun d => h :: d)
  | [], chs => by simp [sliceBatches_nil]
  | line :: rest, chs => by
    rw [foldl_splitStep_start h C hC (line :: rest) (by simp) chs]
    by_cases hlen : (line :: rest).length ≤ C
    · rw [if_pos hlen]
      have hslice : sliceBatches C (line :: rest) = [line :: rest] := by
        rw [sliceBatches_eq_take_drop C hC _ (by simp),
          List.take_of_length_le hlen, List.drop_eq_nil_of_le hlen, sliceBatches_nil]
      rw [hslice]
      simp
    · rw [if_neg hlen]
      rw [foldl_splitStep_closed h C hC ((line :: rest).drop C)
        (chs ++ [h :: (line :: rest).take C])]
      rw [sliceBatches_eq_take_drop C hC (line :: rest) (by simp)]
      simp
termination_by rows => rows.length
decreasing_by simp [List.length_drop]; omega

/-- split_large_csv in closed form: the header consed onto each
C-sized slice of the data lines. -/
theorem split_large_csv_eq_slices (h : String) (C : ℕ) (hC : 0 < C)
    (rows : List String) :
    split_large_csv h rows C = (sliceBatches C rows).map (fun d => h :: d) := by
  unfold split_large_csv
  rw [foldl_splitStep_closed h C hC rows []]
  simp

/-! ### Remaining helper lemmas -/

/-- Folding conditional set insertion over a list collects exactly the
images of the elements satisfying the predicate. -/
theorem foldl_insert_filter (p : String → Bool) (f : String → ℕ) :
    ∀ (l : List String) (acc : Finset ℕ),
      l.foldl (fun acc x => if p x then insert (f x) acc else acc) acc
        = acc ∪ ((l.filter p).map f).toFinset := by
  intro l
  induction l with
  | nil =>
    intro acc
    simp
  | cons x xs ih =>
    intro acc
    rw [List.foldl_cons]
    by_cases hp : p x
    · rw [if_pos hp, ih (insert (f x) acc)]
      rw [List.filter_cons_of_pos hp, List.map_cons, List.toFinset_cons,
        Finset.insert_union, Finset.union_insert]
    · rw [if_neg hp, ih acc, List.filter_cons_of_neg hp]

/-- When every chunk outcome is an exception, the chunk loop never adds
to processed_chunks. -/
theorem foldl_batchStep_err_processed (completed : List ℕ) (tableExists : Bool) :
    ∀ (batch : List ℕ) (s : BatchState),
      (batch.foldl (batchStep completed tableExists (fun _ => ChunkOutcome.err)) s).processed
        = s.processed := by
  intro batch
  induction batch with
  | nil =>
    intro s
    rfl
  | cons c cs ih =>
    intro s
    rw [List.foldl_cons, ih]
    unfold batchStep
    split
    · rfl
    · rfl

/-- max_chunks is the ceiling of the division: the least multiple of the
chunk size covering the row count. -/
theorem max_chunks_ceil_bounds (totalCount chunkSize : ℕ) (hc : 0 < chunkSize) :
    totalCount ≤ chunkSize * max_chunks totalCount chunkSize ∧
      chunkSize * max_chunks totalCount chunkSize < totalCount + chunkSize := by
  unfold max_chunks
  have hdm := Nat.div_add_mod (totalCount + chunkSize - 1) chunkSize
  have hmlt : (totalCount + chunkSize - 1) % chunkSize < chunkSize :=
    Nat.mod_lt _ hc
  generalize hq : (totalCount + chunkSize - 1) / chunkSize = q at hdm ⊢
  generalize hr : (totalCount + chunkSize - 1) % chunkSize = r at hdm hmlt
  rcases Nat.eq_zero_or_pos totalCount with h0 | hpos
  · subst h0
    have hq0 : q = 0 := by
      rw [← hq]
      exact Nat.div_eq_of_lt (by omega)
    subst hq0
    omega
  · generalize chunkSize * q = P at hdm ⊢
    omega

/-! ### Claim theorems -/

/-- Claim C1 (code bug).  The spec invariant states that a chunk index
is added to the progress ledger only when its rows have been durably
committed to the sink, and in particular that a rollback never discards
rows of a chunk recorded in the ledger.  The code violates this: in the
batch [0, 1] on a fresh table and fresh ledger, chunk 0 exports two data
rows and is COPYed successfully, chunk 1 raises; the exception handler
rolls back the single per-batch sink transaction, which also discards
the uncommitted rows of chunk 0, yet chunk 0 stays in processed_chunks
and is written to the ledger, while nothing at all is committed to the
sink. -/
theorem claim_C1_ledger_rollback_divergence :
    ledgerAfterBatch [] false
        (fun c => if c = 0 then ChunkOutcome.ok ["hdr", "row1", "row2"] else ChunkOutcome.err)
        [0, 1] = [0] ∧
    committedAfterBatch [] false
        (fun c => if c = 0 then ChunkOutcome.ok ["hdr", "row1", "row2"] else ChunkOutcome.err)
        [0, 1] = [] := by
  decide

/-- Claim C2 (confirmed).  For a source of one header line and R >= 1
data rows and split chunk size C >= 1, splitting on the fresh path
creates exactly ceil(R/C) chunk files; every chunk file begins with the
header line, every chunk file except possibly the last holds exactly C
data rows (C + 1 lines with the header), and the last holds the
remaining R - C*(ceil(R/C) - 1) data rows. -/
theorem claim_C2_chunk_split_exact (header : String) (dataLines : List String) (C : ℕ)
    (hC : 0 < C) (hR : dataLines ≠ []) :
    (split_large_csv header dataLines C).length = (dataLines.length + C - 1) / C ∧
    (∀ chunk ∈ split_large_csv header dataLines C, chunk.head? = some header) ∧
    (∀ chunk ∈ (split_large_csv header dataLines C).dropLast, chunk.length = C + 1) ∧
    (split_large_csv header dataLines C).getLast?.map List.length
      = some ((dataLines.length
          - C * ((split_large_csv header dataLines C).length - 1)) + 1) := by
  rw [split_large_csv_eq_slices header C hC dataLines]
  refine ⟨?_, ?_, ?_, ?_⟩
  · rw [List.length_map, sliceBatches_length C hC]
  · intro chunk hmem
    rcases List.mem_map.mp hmem with ⟨d, _, rfl⟩
    rfl
  · intro chunk hmem
    rw [← List.map_dropLast] at hmem
    rcases List.mem_map.mp hmem with ⟨d, hd, rfl⟩
    rw [List.length_cons, sliceBatches_dropLast_length C hC dataLines d hd]
  · rw [List.getLast?_map, List.length_map]
    have hlast := sliceBatches_getLast_length C hC dataLines hR
    rcases hq : (sliceBatches C dataLines).getLast? with _ | d
    · rw [hq] at hlast
      simp at hlast
    · rw [hq] at hlast
      simp only [Option.map_some'] at hlast ⊢
      injection hlast with hlast
      rw [List.length_cons, hlast]

/-- Witness for C2 at header "hdr", data rows r1 r2 r3 and chunk size 2:
two chunk files of 3 and 2 lines. -/
theorem claim_C2_chunk_split_exact_witness :
    (0 < 2 ∧ (["r1", "r2", "r3"] : List String) ≠ []) ∧
    ((split_large_csv "hdr" ["r1", "r2", "r3"] 2).length
        = ((["r1", "r2", "r3"] : List String).length + 2 - 1) / 2 ∧
    (∀ chunk ∈ split_large_csv "hdr" ["r1", "r2", "r3"] 2, chunk.head? = some "hdr") ∧
    (∀ chunk ∈ (split_large_csv "hdr" ["r1", "r2", "r3"] 2).dropLast,
        chunk.length = 2 + 1) ∧
    (split_large_csv "hdr" ["r1", "r2", "r3"] 2).getLast?.map List.length
      = some (((["r1", "r2", "r3"] : List String).length
          - 2 * ((split_large_csv "hdr" ["r1", "r2", "r3"] 2).length - 1)) + 1)) :=
  ⟨⟨by decide, by decide⟩,
    claim_C2_chunk_split_exact "hdr" ["r1", "r2", "r3"] 2 (by decide) (by decide)⟩

/-- Claim C3 (confirmed).  The orchestrator computes total chunks as
ceil(N/c) implemented as (N + c - 1) // c, takes the remaining indices
below the total that are not in the ledger, in increasing order, and
partitions them into consecutive batches of exactly batch_size indices
with only the final batch possibly smaller; concretely 2,500,000 rows at
chunk size 500,000 give 5 chunks, batch size 2 gives batches
[[0,1],[2,3],[4]] on a fresh run, and with ledger 0,1 only chunks 2, 3,
4 are dispatched. -/
theorem claim_C3_orchestrator_batching (N c bs : ℕ) (completed : List ℕ)
    (hc : 0 < c) (hbs : 0 < bs) :
    max_chunks N c = N ⌈/⌉ c ∧
    (N ≤ c * max_chunks N c ∧ c * max_chunks N c < N + c) ∧
    (chunk_batches (remaining_chunks N c completed) bs).flatten
      = remaining_chunks N c completed ∧
    (∀ b ∈ (chunk_batches (remaining_chunks N c completed) bs).dropLast,
      b.length = bs) ∧
    (∀ b ∈ chunk_batches (remaining_chunks N c completed) bs,
      b ≠ [] ∧ b.length ≤ bs) ∧
    (remaining_chunks N c completed).Pairwise (· < ·) ∧
    max_chunks 2500000 500000 = 5 ∧
    remaining_chunks 2500000 500000 [] = [0, 1, 2, 3, 4] ∧
    chunk_batches (remaining_chunks 2500000 500000 []) 2 = [[0, 1], [2, 3], [4]] ∧
    remaining_chunks 2500000 500000 [0, 1] = [2, 3, 4] ∧
    chunk_batches (remaining_chunks 2500000 500000 [0, 1]) 2 = [[2, 3], [4]] := by
  refine ⟨(Nat.ceilDiv_eq_add_pred_div N c).symm, max_chunks_ceil_bounds N c hc,
    sliceBatches_flatten bs hbs _, sliceBatches_dropLast_length bs hbs _,
    sliceBatches_mem_bounds bs hbs _, ?_, by decide, by decide, by decide,
    by decide, by decide⟩
  exact (List.pairwise_lt_range _).sublist (List.filter_sublist _)

/-- Witness for C3 at the concrete scenario of the spec. -/
theorem claim_C3_orchestrator_batching_witness :
    (0 < 500000 ∧ 0 < 2) ∧
    (chunk_batches (remaining_chunks 2500000 500000 []) 2).flatten
      = remaining_chunks 2500000 500000 [] :=
  ⟨⟨by decide, by decide⟩,
    (claim_C3_orchestrator_batching 2500000 500000 2 [] (by decide) (by decide)).2.2.1⟩

/-- Claim C4 (confirmed).  The sink COPY uses header mode exactly when
the chunk index is 0 and the sink table did not pre-exist; in every
other combination the first line of the exported CSV is skipped and the
rows are appended headerless, and for a fixed table-existence flag at
most one chunk index can use header mode. -/
theorem claim_C4_header_mode (c : ℕ) (t : Bool) (file : List String) :
    (copy_uses_header c t = true ↔ (c = 0 ∧ t = false)) ∧
    ((c ≠ 0 ∨ t = true) → lines_sent_to_sink c t file = file.drop 1) ∧
    (∀ c₂ : ℕ, copy_uses_header c t = true → copy_uses_header c₂ t = true → c₂ = c) := by
  refine ⟨?_, ?_, ?_⟩
  · cases t <;> simp [copy_uses_header]
  · intro hct
    unfold lines_sent_to_sink
    rw [if_neg]
    intro hdr
    rcases hct with hc0 | ht
    · cases t <;> simp [copy_uses_header] at hdr <;> omega
    · subst ht
      simp [copy_uses_header] at hdr
  · intro c₂ h1 h2
    cases t <;> simp [copy_uses_header] at h1 h2 <;> omega

/-- Witness for C4: chunk 3 of a fresh table is sent headerless, and
chunk 0 of a fresh table is the unique header-mode chunk. -/
theorem claim_C4_header_mode_witness :
    lines_sent_to_sink 3 false ["h", "r"] = ["r"] ∧ (0 : ℕ) = 0 :=
  ⟨(claim_C4_header_mode 3 false ["h", "r"]).2.1 (Or.inl (by decide)),
   (claim_C4_header_mode 0 false ["h"]).2.2 0 (by decide) (by decide)⟩

/-- Counterexample for claim C5.  The claim states the ledger file is
deleted only when the queried sink count matches the expected total (or
the ledger is empty); but with a sink count of 5 against any expected
total such as 10, with the ledger file present, verify_transfer still
deletes the ledger file: deletion is unconditional once the queries
succeed. -/
theorem claim_C5_counterexample :
    (verify_transfer
      { pgCount := some 5, idStats := some (1, 2, 3), progressFileExists := true
      }).progressDeleted = true ∧ (5 : ℕ) ≠ 10 := by
  decide

/-- Claim C5 (corrected).  verify_transfer runs the verification
queries and reports the sink count, warning when it equals the
historical truncation limit 1,000,000; the ledger file is then deleted
whenever the queries succeeded and the file exists - independently of
the counted value, with no comparison against an expected total - and
it is left in place exactly when some verification query raised. -/
theorem claim_C5_amended (n m : ℕ) (stats : Option (ℕ × ℕ × ℕ)) (e : Bool) :
    (verify_transfer
        { pgCount := some n, idStats := stats, progressFileExists := e }).progressDeleted
      = (verify_transfer
        { pgCount := some m, idStats := stats, progressFileExists := e }).progressDeleted ∧
    (verify_transfer
      { pgCount := some n, idStats := some (1, 2, 3), progressFileExists := true
      }).progressDeleted = true ∧
    (verify_transfer
      { pgCount := none, idStats := stats, progressFileExists := e
      }).progressDeleted = false ∧
    (verify_transfer
      { pgCount := some n, idStats := none, progressFileExists := e
      }).progressDeleted = false ∧
    (verify_transfer
      { pgCount := some 1000000, idStats := stats, progressFileExists := e
      }).warnedTruncation = true := by
  cases stats <;> simp [verify_transfer]

/-- Counterexample for claim C6.  The claim states create_smart_filter
returns None when no canonical column referenced by the expression
matches any available column; but for the nonempty Plantae filter
against the column list [foo], where nothing matches, it returns the
filter expression unchanged rather than None. -/
theorem claim_C6_counterexample :
    create_smart_filter kingdomFilter ["foo"] = some kingdomFilter := by decide

/-- Claim C6 (corrected).  create_smart_filter returns None only for an
empty (falsy) filter expression; when no referenced canonical column
matches it returns the expression unchanged, and the caller in
process_chunk_to_postgres still proceeds unfiltered with a warning,
because the unmatched column name makes the staging WHERE query raise
inside the caught try block. -/
theorem claim_C6_amended (originalCount : ℕ) :
    create_smart_filter kingdomFilter ["foo"] = some kingdomFilter ∧
    create_smart_filter "" ["foo"] = none ∧
    chunkFilterStage (some kingdomFilter) ["foo"] (fun _ => none) originalCount
      = FilterOutcome.proceed originalCount false := by
  have hcf : create_smart_filter kingdomFilter ["foo"] = some kingdomFilter := by decide
  refine ⟨hcf, rfl, ?_⟩
  simp [chunkFilterStage, hcf]

/-- Claim C7 (confirmed).  Given available columns Kingdom and Family
and the filter kingdom = &#39;Plantae&#39;, create_smart_filter matches
the canonical name case-insensitively to the literal column Kingdom,
quotes it because it carries an uppercase letter, and rewrites the
expression to reference it. -/
theorem claim_C7_filter_case_insensitive_rewrite :
    findColumnMatch ["Kingdom", "Family"] "kingdom" = some "Kingdom" ∧
    quoteIfNeeded "Kingdom" = "\"Kingdom\"" ∧
    create_smart_filter kingdomFilter ["Kingdom", "Family"]
      = some ("\"Kingdom\" = " ++ sq ++ "Plantae" ++ sq) := by decide

/-- Counterexample for claim C8.  The claim states that a small source
file successfully parsed with zero rows is treated as header-only and
returns zero rows; but for a 10-byte header-only file, every parse of
which succeeds with zero rows, load_small_csv_to_duckdb raises after
exhausting all strategies. -/
theorem claim_C8_counterexample :
    load_small_csv_to_duckdb headerOnlyFile
      = Except.error "Could not load with any encoding or repair method" := rfl

/-- Claim C8 (corrected).  A zero-row parse is treated as a failed
attempt that advances the fallback cascade, not as a header-only
success.  For chunk files, process_chunk_to_postgres still does not
raise: the for-else path returns a zero-row result dict.  For small
source files of at least 10 bytes the loader raises once every strategy
is exhausted; only files under 10 bytes return zero rows. -/
theorem claim_C8_amended :
    chunkLoad headerOnlyFile = ChunkLoadResult.unloadable ∧
    chunkLoadResultDict headerOnlyFile = (0, 0) ∧
    load_small_csv_to_duckdb headerOnlyFile
      = Except.error "Could not load with any encoding or repair method" ∧
    load_small_csv_to_duckdb tinyHeaderOnlyFile = Except.ok 0 :=
  ⟨by decide, by decide, rfl, rfl⟩

/-- Claim C9 (confirmed).  load_progress returns exactly the set of
integers parsed from the digit-only lines of the ledger file: the file
3, abc, 7 loads as the set containing 3 and 7; an absent file, an
unreadable file, and a file with only non-numeric lines load as the
empty set. -/
theorem claim_C9_load_progress_tolerance (s : String) :
    load_progress (LedgerFile.content "3\nabc\n7\n") = {3, 7} ∧
    load_progress LedgerFile.absent = ∅ ∧
    load_progress LedgerFile.unreadable = ∅ ∧
    load_progress (LedgerFile.content "abc\n \nx1\n-4\n") = ∅ ∧
    load_progress (LedgerFile.content s)
      = ((((pySplitLines s).map pyStrip).filter pyIsDigit).map pyToNat).toFinset := by
  refine ⟨by decide, rfl, rfl, by decide, ?_⟩
  show ((pySplitLines s).map pyStrip).foldl _ ∅ = _
  rw [foldl_insert_filter pyIsDigit pyToNat]
  simp

/-- Claim C10 (confirmed).  process_chunk_batch returns success means
true whenever no batch-level exception escapes the worker body, even
when every chunk in the batch failed and processed_chunks is 0; success
means false exactly when a batch-level exception occurs. -/
theorem claim_C10_batch_success_semantics (workerId : ℕ) (completed : List ℕ)
    (tableExists : Bool) (out : ℕ → ChunkOutcome) (batch : List ℕ) :
    (process_chunk_batch workerId false completed tableExists out batch).success = true ∧
    (process_chunk_batch workerId true completed tableExists out batch).success = false ∧
    (process_chunk_batch workerId false completed tableExists
      (fun _ => ChunkOutcome.err) batch).processedChunks = 0 ∧
    (process_chunk_batch workerId false completed tableExists
      (fun _ => ChunkOutcome.err) batch).success = true := by
  refine ⟨rfl, rfl, ?_, rfl⟩
  show (runBatch completed tableExists (fun _ => ChunkOutcome.err) batch).processed.length = 0
  unfold runBatch
  rw [foldl_batchStep_err_processed]
  rfl

end OrchidDb
